import Mathlib

/-
Verification of the zettelkasten automation pipeline
(src/zettelkasten_automation.py) against its natural-language
specification.

Strings manipulated character-by-character by the source (titles, tags,
extracted body text) are modelled as `List Char`; opaque identifiers and
timestamps that are only compared for equality (page ids, edit-revision
timestamps, ledger status strings) are modelled as `String`.  Python's
Unicode-aware `str.lower` / `str.isalnum` are modelled by Lean's ASCII
`Char.toLower` / `Char.isAlphanum`; no claim below depends on non-ASCII
case folding or on the exact alphanumeric character class.
-/

/-- Python `str.lower()` on a string modelled as a list of characters. -/
def pyLower (s : List Char) : List Char := s.map Char.toLower

/-- Python substring test `needle in haystack` for strings modelled as
lists of characters. -/
def hasSub (needle : List Char) : List Char → Bool
  | [] => needle.isEmpty
  | c :: rest => needle.isPrefixOf (c :: rest) || hasSub needle rest

/-- Python `str.isalnum` restricted to ASCII (see the header comment). -/
def pyIsAlnum (c : Char) : Bool := c.isAlphanum

/-- Structured content block of a note, as consumed by
`get_page_content` and `update_notion_page`.  `rich` is the block's
`rich_text` array, one `plain_text` fragment per element; a block whose
payload carries no `rich_text` key is modelled by `rich = []` (both
render to the empty string in `_extract_text`).  `unsupported` covers
every block type the source ignores. -/
inductive Block where
  | paragraph (rich : List (List Char))
  | heading1 (rich : List (List Char))
  | heading2 (rich : List (List Char))
  | heading3 (rich : List (List Char))
  | bulleted (rich : List (List Char))
  | numbered (rich : List (List Char))
  | toDo (checked : Bool) (rich : List (List Char))
  | divider
  | unsupported
deriving DecidableEq

/-- `_extract_text`: concatenate the `plain_text` fragments. -/
def extractText (rich : List (List Char)) : List Char := rich.flatten

/-- Rendering of one block inside `get_page_content`: the text appended
to the `content` list, or `none` when the block contributes nothing
(empty text or unhandled type). -/
def renderBlock : Block → Option (List Char)
  | .paragraph r =>
      let t := extractText r
      if t.isEmpty then none else some t
  | .heading1 r =>
      let t := extractText r
      if t.isEmpty then none else some ("\n## ".toList ++ t ++ "\n".toList)
  | .heading2 r =>
      let t := extractText r
      if t.isEmpty then none else some ("\n## ".toList ++ t ++ "\n".toList)
  | .heading3 r =>
      let t := extractText r
      if t.isEmpty then none else some ("\n## ".toList ++ t ++ "\n".toList)
  | .bulleted r =>
      let t := extractText r
      if t.isEmpty then none else some ("- ".toList ++ t)
  | .numbered r =>
      let t := extractText r
      if t.isEmpty then none else some ("1. ".toList ++ t)
  | .toDo checked r =>
      let t := extractText r
      if t.isEmpty then none
      else some ((if checked then "✓" else "☐").toList ++ " ".toList ++ t)
  | .divider => none
  | .unsupported => none

/-- `get_page_content`: render each block and join with newlines. -/
def getPageContent (blocks : List Block) : List Char :=
  List.intercalate "\n".toList (blocks.filterMap renderBlock)

/-- One value of the `processed_pages` mapping, as written by
`_add_to_log`.  The wall-clock `processed_at` timestamp is recorded but
never read back by the source, so `addToLog` fills it with an opaque
constant. -/
structure LogEntry where
  title : List Char
  processedAt : String
  lastEditedTime : String
  status : String
deriving DecidableEq

/-- The `processed_pages` mapping of the processing log, keyed by page
id (a Python dict, modelled as an association list with distinct
observable behaviour only through `getEntry`/`setEntry`). -/
abbrev Ledger := List (String × LogEntry)

/-- Dict lookup `processed_pages[page_id]` (as an option). -/
def getEntry (log : Ledger) (pageId : String) : Option LogEntry :=
  (log.find? (fun kv => kv.1 == pageId)).map (fun kv => kv.2)

/-- Dict assignment `processed_pages[page_id] = e` (overwrite or add). -/
def setEntry (log : Ledger) (pageId : String) (e : LogEntry) : Ledger :=
  if log.any (fun kv => kv.1 == pageId) then
    log.map (fun kv => if kv.1 == pageId then (pageId, e) else kv)
  else log ++ [(pageId, e)]

/-- `_add_to_log`: overwrite the entry for `pageId` (the ledger is then
saved to disk; persistence is outside this model). -/
def addToLog (log : Ledger) (pageId : String) (title : List Char)
    (lastEditedTime : String) (status : String) : Ledger :=
  setEntry log pageId
    { title := title, processedAt := "", lastEditedTime := lastEditedTime,
      status := status }

/-- `_is_already_processed` on a well-formed ledger: true iff an entry
exists for the page and its stored `last_edited_time` equals the current
one.  The entry's `status` field is never consulted. -/
def isAlreadyProcessedB (log : Ledger) (pageId lastEditedTime : String) : Bool :=
  match getEntry log pageId with
  | some e => e.lastEditedTime == lastEditedTime
  | none => false

/-- Staleness check, as used by `get_unprocessed_pages`
(`not self._is_already_processed(...)`). -/
def isStale (log : Ledger) (pageId lastEditedTime : String) : Bool :=
  ! isAlreadyProcessedB log pageId lastEditedTime

/-- Shape of the value `json.load` produced for the log file.
`properLog` is a dict with a `processed_pages` dict (the shape
`_add_to_log` writes); `dictNoPP` is any other dict, e.g. the parse of
`{}` (subscripting it with `"processed_pages"` raises `KeyError`);
`nonDict` is any non-dict JSON value, e.g. the parse of `[]`
(subscripting it with a string key raises `TypeError`). -/
inductive LoadedLog where
  | properLog (entries : Ledger)
  | dictNoPP
  | nonDict
deriving DecidableEq

/-- State of the log file on disk: missing, unreadable (an I/O or JSON
decode error — anything raising inside `_load_log`'s `try`), or
successfully parsed to some JSON value. -/
inductive FileState where
  | absent
  | readFails
  | parsed (l : LoadedLog)
deriving DecidableEq

/-- `_load_log`: a missing or unreadable file yields the empty log
`{"processed_pages": {}}`; a file that parses is returned as parsed,
whatever its shape. -/
def loadLog : FileState → LoadedLog
  | .absent => .properLog []
  | .readFails => .properLog []
  | .parsed l => l

/-- `_is_already_processed` run against a loaded log of arbitrary
shape.  `self.processing_log["processed_pages"]` raises `KeyError` on a
dict without the key and `TypeError` on a non-dict; neither exception is
caught anywhere on the path from `run` through
`get_unprocessed_pages`. -/
def isAlreadyProcessedE (log : LoadedLog) (pageId lastEditedTime : String) :
    Except String Bool :=
  match log with
  | .properLog entries => .ok (isAlreadyProcessedB entries pageId lastEditedTime)
  | .dictNoPP => .error "KeyError: processed_pages"
  | .nonDict => .error "TypeError: string indices on non-dict"

/-- Structured output of the analysis backend once `json.loads`
succeeded.  Each field is `none` when the key is missing from the
returned JSON object. -/
structure AIResponse where
  title : Option (List Char)
  tags : Option (List (List Char))
  summary : Option (List Char)
  keywords : Option (List (List Char))
deriving DecidableEq

/-- Value returned by `analyze_with_ai`: a dict that is guaranteed to
carry `title` and `tags` (the success path reads both before
returning), while `summary` and `keywords` may still be absent. -/
structure Analysis where
  title : List Char
  tags : List (List Char)
  summary : Option (List Char)
  keywords : Option (List (List Char))
deriving DecidableEq

/-- The fallback dict built in `analyze_with_ai`'s `except` branch:
title 「無題のメモ」, tags `existing_tags or ["未分類"]`, summary
`content[:100]`, keywords `[]`. -/
def defaultAnalysis (content : List Char) (existingTags : List (List Char)) :
    Analysis :=
  { title := "無題のメモ".toList
    tags := if existingTags.isEmpty then ["未分類".toList] else existingTags
    summary := some (content.take 100)
    keywords := some [] }

/-- `analyze_with_ai`.  `resp = none` models the backend call or
`json.loads` raising; `resp = some r` models a parsed JSON object.  In
the `try` block only `result["title"]` and `result["tags"]` are read
(the two success-path prints; `keywords` is read with a defaulting
`.get`), so a missing `title` or `tags` raises `KeyError` inside the
`try` and lands in the fallback, while a response missing only
`summary` or `keywords` is returned unchanged. -/
def analyzeWithAI (content : List Char) (existingTags : List (List Char))
    (resp : Option AIResponse) : Analysis :=
  match resp with
  | none => defaultAnalysis content existingTags
  | some r =>
    match r.title, r.tags with
    | some t, some tg =>
        { title := t, tags := tg, summary := r.summary, keywords := r.keywords }
    | some _, none => defaultAnalysis content existingTags
    | none, _ => defaultAnalysis content existingTags

/-- Snapshot of one page of the document store, together with the
behaviour of the external collaborators for this page during the run:
`aiResp` is what the analysis backend returns for its content, and
`persistErr` (when `some`) is the exception message with which one of
the persistence calls (`update_notion_page` / `save_to_github`, both of
which re-raise) fails. -/
structure Page where
  id : String
  title : List Char
  tags : List (List Char)
  status : String
  aiProcessed : Bool
  lastEditedTime : String
  createdTime : List Char
  blocks : List Block
  aiResp : Option AIResponse
  persistErr : Option String
deriving DecidableEq

/-- The Notion query filter of `get_unprocessed_pages`:
`Status == "未処理" OR AI処理済み == False`. -/
def matchesFilter (p : Page) : Bool :=
  p.status == "未処理" || !p.aiProcessed

/-- `get_unprocessed_pages` on a well-formed ledger: the store-side
filter, then the ledger staleness filter. -/
def getUnprocessedPages (log : Ledger) (pages : List Page) : List Page :=
  (pages.filter matchesFilter).filter
    (fun p => ! isAlreadyProcessedB log p.id p.lastEditedTime)

/-- The ledger-staleness filtering loop of `get_unprocessed_pages`,
over a loaded log of arbitrary shape: the first page whose
`_is_already_processed` check raises aborts the whole listing. -/
def filterUnprocessed (log : LoadedLog) : List Page → Except String (List Page)
  | [] => .ok []
  | p :: ps => do
      let b ← isAlreadyProcessedE log p.id p.lastEditedTime
      let rest ← filterUnprocessed log ps
      if b then pure rest else pure (p :: rest)

/-- `get_unprocessed_pages` over a loaded log of arbitrary shape. -/
def getUnprocessedPagesE (log : LoadedLog) (pages : List Page) :
    Except String (List Page) :=
  filterUnprocessed log (pages.filter matchesFilter)

/-- One element of the `related` list built by `find_related_pages`. -/
structure Candidate where
  id : String
  title : List Char
  score : Nat
deriving DecidableEq

/-- Count of keywords case-insensitively substring-matching the title
(`sum(1 for kw in keywords if kw.lower() in title_lower)`). -/
def titleMatches (keywords : List (List Char)) (title : List Char) : Nat :=
  (keywords.filter (fun kw => hasSub (pyLower kw) (pyLower title))).length

/-- Count of keywords case-insensitively substring-matching the
space-joined tag text. -/
def tagMatches (keywords : List (List Char)) (tags : List (List Char)) : Nat :=
  (keywords.filter
    (fun kw => hasSub (pyLower kw) (pyLower (List.intercalate " ".toList tags)))).length

/-- `score = title_matches * 2 + tag_matches`. -/
def pageScore (keywords : List (List Char)) (p : Page) : Nat :=
  2 * titleMatches keywords p.title + tagMatches keywords p.tags

/-- The per-page body of `find_related_pages`'s loop: skip the current
page, skip pages with an empty or placeholder (「無題」) title, score the
rest, and keep only strictly positive scores. -/
def candOf (keywords : List (List Char)) (currentPageId : String) (p : Page) :
    Option Candidate :=
  if p.id == currentPageId then none
  else if p.title.isEmpty || p.title == "無題".toList then none
  else
    let score := pageScore keywords p
    if 0 < score then some { id := p.id, title := p.title, score := score }
    else none

/-- The unsorted `related` list, in corpus-snapshot order. -/
def relatedOf (keywords : List (List Char)) (currentPageId : String)
    (cache : List Page) : List Candidate :=
  cache.filterMap (candOf keywords currentPageId)

/-- The descending-score order used by
`related.sort(key=lambda x: x["score"], reverse=True)`. -/
def scoreGE (a b : Candidate) : Prop := b.score ≤ a.score

instance : DecidableRel scoreGE := fun a b => Nat.decLe b.score a.score

instance : IsTotal Candidate scoreGE := ⟨fun a b => Nat.le_total b.score a.score⟩

instance : IsTrans Candidate scoreGE := ⟨fun _ _ _ h1 h2 => le_trans h2 h1⟩

/-- Python's stable `list.sort` with `reverse=True` on the score key,
modelled by stable insertion sort under `scoreGE`. -/
def sortDesc (l : List Candidate) : List Candidate := List.insertionSort scoreGE l

/-- `find_related_pages`: empty keyword list short-circuits to `[]`;
otherwise score, sort descending (stably) and keep the first `topK`
(the source's `top_k` parameter, default 5). -/
def findRelatedPages (keywords : List (List Char)) (currentPageId : String)
    (cache : List Page) (topK : Nat) : List Candidate :=
  if keywords.isEmpty then []
  else (sortDesc (relatedOf keywords currentPageId cache)).take topK

/-- The marker substring `update_notion_page` looks for:「関連メモ」. -/
def relatedMarker : List Char := "関連メモ".toList

/-- Does one block count as an existing related-notes heading?  Only
`heading_2`/`heading_3` blocks whose extracted text contains the
marker. -/
def isRelatedHeading (b : Block) : Bool :=
  match b with
  | .heading2 r => hasSub relatedMarker (extractText r)
  | .heading3 r => hasSub relatedMarker (extractText r)
  | _ => false

/-- The append-once guard of `update_notion_page`. -/
def hasRelatedSection (blocks : List Block) : Bool := blocks.any isRelatedHeading

/-- Number of related-notes headings in a note. -/
def countRelatedHeadings (blocks : List Block) : Nat :=
  (blocks.filter isRelatedHeading).length

/-- The `children` blocks `update_notion_page` appends: a divider, a
`heading_2`「🔗 関連メモ」, then one paragraph per candidate (an arrow
fragment plus a page mention, whose `plain_text` renders as the target
page's title). -/
def relatedSectionBlocks (related : List Candidate) : List Block :=
  [Block.divider, Block.heading2 ["🔗 関連メモ".toList]] ++
    related.map (fun rp => Block.paragraph ["→ ".toList, rp.title])

/-- The block-level effect of `update_notion_page` on the note's block
sequence: nothing is appended when there are no related pages or when a
related-notes heading already exists. -/
def updateNotionBlocks (blocks : List Block) (related : List Candidate) :
    List Block :=
  if related.isEmpty then blocks
  else if hasRelatedSection blocks then blocks
  else blocks ++ relatedSectionBlocks related

/-- The `safe_title` computation of `process_page`: replace `/` and `\`
by `-`, truncate to 50 characters, then keep only alphanumeric, space,
hyphen and underscore characters. -/
def safeTitle (title : List Char) : List Char :=
  (((title.map (fun c => if c == '/' then '-' else c)).map
      (fun c => if c == '\\' then '-' else c)).take 50).filter
    (fun c => pyIsAlnum c || c == ' ' || c == '-' || c == '_')

/-- The archive path `f"{target_dir}/{page['created_time'][:10]}_{safe_title}.md"`
with `target_dir = "zettelkasten-vault"`. -/
def archivePath (title createdTime : List Char) : List Char :=
  "zettelkasten-vault/".toList ++ createdTime.take 10 ++ "_".toList ++
    safeTitle title ++ ".md".toList

/-- Outcome of one `process_page` call: an early return on too-short
content, a normal return (carrying the enriched title that was logged),
or an exception propagated to `run`'s per-page handler. -/
inductive ProcResult where
  | skipped
  | success (title : List Char)
  | failed (err : String)
deriving DecidableEq

/-- The control flow of `process_page`: extract the body; return
immediately when it is empty or shorter than 20 characters; otherwise
enrich via `analyze_with_ai` and then persist (related-page lookup,
Notion update, markdown render, GitHub save), persistence failures
modelled by `persistErr`. -/
def procOutcome (p : Page) : ProcResult :=
  let content := getPageContent p.blocks
  if content.isEmpty || content.length < 20 then .skipped
  else
    let analysis := analyzeWithAI content p.tags p.aiResp
    match p.persistErr with
    | some e => .failed e
    | none => .success analysis.title

/-- `process_page` together with its effect on the ledger: only the
successful path reaches `_add_to_log` (status `"success"`); the skip
path returns before it and an exception propagates before it. -/
def processPage (log : Ledger) (p : Page) : Ledger × ProcResult :=
  match procOutcome p with
  | .skipped => (log, .skipped)
  | .success t => (addToLog log p.id t p.lastEditedTime "success", .success t)
  | .failed e => (log, .failed e)

/-- Aggregate state of `run`'s processing loop. -/
structure RunResult where
  ledger : Ledger
  successCount : Nat
  errorCount : Nat
deriving DecidableEq

/-- The error-path title `self._get_page_title(page) or "タイトル取得失敗"`. -/
def titleOrFallback (p : Page) : List Char :=
  if p.title.isEmpty then "タイトル取得失敗".toList else p.title

/-- One iteration of `run`'s loop: `process_page` inside
`try`/`except`; a normal return (skip included) increments
`success_count`, an exception increments `error_count` and logs an
error-outcome entry under the pre-enrichment title. -/
def runStep (acc : RunResult) (p : Page) : RunResult :=
  match processPage acc.ledger p with
  | (log2, .skipped) =>
      { ledger := log2, successCount := acc.successCount + 1,
        errorCount := acc.errorCount }
  | (log2, .success _) =>
      { ledger := log2, successCount := acc.successCount + 1,
        errorCount := acc.errorCount }
  | (log2, .failed e) =>
      { ledger := addToLog log2 p.id (titleOrFallback p) p.lastEditedTime
          ("error: " ++ e)
        successCount := acc.successCount
        errorCount := acc.errorCount + 1 }

/-- The processing loop of `run` over an already-computed candidate
list. -/
def runBatch (log : Ledger) (pages : List Page) : RunResult :=
  pages.foldl runStep { ledger := log, successCount := 0, errorCount := 0 }


/-! ## Theorems -/

/-- C2: the ledger staleness check is true iff no entry exists for the
note id or the stored revision differs from the current revision; the
stored outcome (`status`, quantified inside the entry) plays no role. -/
theorem C2_is_stale_iff (log : Ledger) (pageId rev : String) :
    isStale log pageId rev = true ↔
      getEntry log pageId = none ∨
        ∃ e, getEntry log pageId = some e ∧ e.lastEditedTime ≠ rev := by
  unfold isStale isAlreadyProcessedB
  cases h : getEntry log pageId <;> simp

/-- C1, as stated, is false: the candidate listing filters server-side
first, so a note whose status was set to 処理済み and whose AI処理済み
flag was set true by a successful previous run is excluded from the
candidate set even though its edit-revision changed afterwards.  The
ledger below records a successful run at the old revision and the page
carries a new revision, yet the candidate set is empty. -/
def c1Entry : LogEntry :=
  { title := "old title".toList, processedAt := "",
    lastEditedTime := "2024-01-01T00:00:00.000Z", status := "success" }

/-- Ledger state after the previous successful run (claim C1). -/
def c1Ledger : Ledger := [("A", c1Entry)]

/-- The note as the store returns it after the previous successful run
set its status and flag, edited again afterwards (claim C1). -/
def c1Page : Page :=
  { id := "A", title := "Rust memory model".toList, tags := [],
    status := "処理済み", aiProcessed := true,
    lastEditedTime := "2024-01-02T00:00:00.000Z",
    createdTime := "2024-01-02".toList, blocks := [], aiResp := none,
    persistErr := none }

/-- C1 counterexample: the edit-revision changed since the recorded
successful run (the ledger check finds the note stale), yet the note
does not reappear in the candidate set because the store-side filter
already excludes it. -/
theorem C1_counterexample :
    isStale c1Ledger c1Page.id c1Page.lastEditedTime = true ∧
    getEntry c1Ledger c1Page.id = some c1Entry ∧
    c1Entry.status = "success" ∧
    c1Page.status = "処理済み" ∧ c1Page.aiProcessed = true ∧
    getUnprocessedPages c1Ledger [c1Page] = [] := by
  decide

/-- C1 amended: a note is in the candidate set iff it satisfies the
store-side filter (`Status == "未処理" OR AI処理済み == False`) and the
ledger finds it stale (no entry, or stored revision differs, regardless
of prior success/failure outcome).  In particular an edited note
reappears only while it still matches the store-side filter; a note
whose status is processed and whose flag is true does not reappear. -/
theorem C1_amended_candidate_set (log : Ledger) (pages : List Page) (p : Page) :
    p ∈ getUnprocessedPages log pages ↔
      p ∈ pages ∧ matchesFilter p = true ∧
        isStale log p.id p.lastEditedTime = true := by
  unfold getUnprocessedPages isStale
  simp only [List.mem_filter, Bool.not_eq_eq_eq_not, Bool.not_true]
  tauto

/-- Helper: over the empty well-formed ledger the staleness filter
keeps every page. -/
theorem filterUnprocessed_empty_log (l : List Page) :
    filterUnprocessed (.properLog []) l = .ok l := by
  induction l with
  | nil => rfl
  | cons p ps ih =>
    simp [filterUnprocessed, isAlreadyProcessedE, isAlreadyProcessedB, getEntry,
      ih, Bind.bind, Except.bind, Pure.pure, Except.pure]

/-- C7 counterexample: a ledger file that parses to a dict without the
`processed_pages` key (for example the file content `{}`) is not
treated as an empty ledger; the staleness check raises, and so does the
candidate-set computation run over it. -/
def c7Page : Page :=
  { id := "A", title := "t".toList, tags := [], status := "未処理",
    aiProcessed := false, lastEditedTime := "2024-01-02T00:00:00.000Z",
    createdTime := "2024-01-02".toList, blocks := [], aiResp := none,
    persistErr := none }

/-- C7 counterexample theorem (see `c7Page`). -/
theorem C7_counterexample :
    isAlreadyProcessedE (loadLog (.parsed .dictNoPP)) "A"
        "2024-01-02T00:00:00.000Z" = .error "KeyError: processed_pages" ∧
    getUnprocessedPagesE (loadLog (.parsed .dictNoPP)) [c7Page] =
      .error "KeyError: processed_pages" := by
  constructor
  · rfl
  · rfl

/-- C7 amended: a missing or unreadable/unparseable ledger file loads
as the empty ledger, every staleness check on it completes without
raising and reports the note unprocessed, and the candidate-set
computation completes, treating all notes as unprocessed (every page
passing the store-side filter is a candidate).  A ledger that parses to
an unexpected shape, however, is returned as parsed and the first
staleness check raises (`C7_counterexample`). -/
theorem C7_amended_fail_open (fs : FileState) (pages : List Page)
    (pageId rev : String) (h : fs = .absent ∨ fs = .readFails) :
    loadLog fs = .properLog [] ∧
    isAlreadyProcessedE (loadLog fs) pageId rev = .ok false ∧
    getUnprocessedPagesE (loadLog fs) pages = .ok (pages.filter matchesFilter) := by
  have h1 : loadLog fs = .properLog [] := by
    rcases h with h | h <;> subst h <;> rfl
  refine ⟨h1, ?_, ?_⟩
  · rw [h1]; rfl
  · rw [h1]
    unfold getUnprocessedPagesE
    exact filterUnprocessed_empty_log _

/-- C7 witness: the amended theorem applied to a missing file and one
concrete filter-matching page. -/
theorem C7_amended_fail_open_witness :
    loadLog .absent = .properLog [] ∧
    isAlreadyProcessedE (loadLog .absent) "A" "2024-01-02T00:00:00.000Z" =
      .ok false ∧
    getUnprocessedPagesE (loadLog .absent) [c7Page] =
      .ok ([c7Page].filter matchesFilter) :=
  C7_amended_fail_open .absent [c7Page] "A" "2024-01-02T00:00:00.000Z"
    (Or.inl rfl)

/-- C5: extraction shorter than 20 characters returns immediately —
outcome `skipped`, no exception, and the ledger is untouched; a body of
20 characters or more proceeds to enrichment (`analyze_with_ai` is
invoked, and the attempt ends in the logged success or in the
propagated persistence error, never in a skip). -/
theorem C5_skip_boundary (log : Ledger) (p : Page) :
    ((getPageContent p.blocks).length < 20 →
      procOutcome p = .skipped ∧ processPage log p = (log, .skipped)) ∧
    (20 ≤ (getPageContent p.blocks).length →
      procOutcome p =
        match p.persistErr with
        | some e => .failed e
        | none =>
            .success (analyzeWithAI (getPageContent p.blocks) p.tags p.aiResp).title) := by
  constructor
  · intro h
    have hs : procOutcome p = .skipped := by
      unfold procOutcome
      simp [h]
    exact ⟨hs, by unfold processPage; rw [hs]⟩
  · intro h
    have hne : (getPageContent p.blocks).isEmpty = false := by
      cases hc : getPageContent p.blocks with
      | nil => rw [hc] at h; simp at h
      | cons c cs => rfl
    unfold procOutcome
    simp [hne, Nat.not_lt.mpr h]

/-- Witness page for claim C5 whose extracted body is exactly 19
characters long. -/
def c5Page19 : Page :=
  { id := "B", title := "b".toList, tags := [], status := "未処理",
    aiProcessed := false, lastEditedTime := "2024-01-02T00:00:00.000Z",
    createdTime := "2024-01-02".toList,
    blocks := [Block.paragraph ["abcdefghijklmnopqrs".toList]],
    aiResp := none, persistErr := none }

/-- Witness page for claim C5 whose extracted body is exactly 20
characters long. -/
def c5Page20 : Page :=
  { c5Page19 with blocks := [Block.paragraph ["abcdefghijklmnopqrst".toList]] }

/-- C5 witness: a 19-character body is skipped leaving the ledger
alone, while a 20-character body reaches enrichment. -/
theorem C5_skip_boundary_witness :
    procOutcome c5Page19 = .skipped ∧
    processPage [] c5Page19 = ([], .skipped) ∧
    procOutcome c5Page20 =
      .success (analyzeWithAI (getPageContent c5Page20.blocks) c5Page20.tags
        c5Page20.aiResp).title := by
  have h19 := (C5_skip_boundary [] c5Page19).1 (by decide)
  have h20 := (C5_skip_boundary [] c5Page20).2 (by decide)
  exact ⟨h19.1, h19.2, h20⟩

/-- C6, as stated, is false: `analyze_with_ai` falls back to the
default metadata only when the backend call raises, its output fails to
parse, or the parsed object lacks `title` or `tags` (the only keys read
inside the `try`).  A malformed response that carries `title` and
`tags` but omits the contractually required `summary` and `keywords`
keys is returned unchanged — not the default metadata. -/
def c6Malformed : AIResponse :=
  { title := some "T".toList, tags := some [], summary := none,
    keywords := none }

/-- C6 counterexample: on the malformed four-field-contract-violating
response `c6Malformed` the enrichment call returns the partial payload
itself, whose title is not 「無題のメモ」 and whose keyword list is
absent rather than empty. -/
theorem C6_counterexample :
    analyzeWithAI "some note text".toList [] (some c6Malformed) =
      { title := "T".toList, tags := [], summary := none, keywords := none } ∧
    analyzeWithAI "some note text".toList [] (some c6Malformed) ≠
      defaultAnalysis "some note text".toList [] := by
  constructor
  · rfl
  · decide

/-- C6 amended: when the backend call raises (or its output is not
parseable JSON), or the parsed object lacks the `title` or the `tags`
key, the enrichment call does not raise and returns the default
metadata: title 「無題のメモ」, tags equal to the pre-existing tags (or
the single sentinel 「未分類」 tag if none existed), summary equal to
the first 100 characters of the input text, and an empty keyword list.
A response carrying `title` and `tags` is returned as-is even when
`summary` or `keywords` is missing (`C6_counterexample`). -/
theorem C6_amended_fallback (content : List Char) (existingTags : List (List Char))
    (resp : Option AIResponse)
    (h : resp = none ∨ ∃ r, resp = some r ∧ (r.title = none ∨ r.tags = none)) :
    analyzeWithAI content existingTags resp =
      { title := "無題のメモ".toList
        tags := if existingTags.isEmpty then ["未分類".toList] else existingTags
        summary := some (content.take 100)
        keywords := some [] } := by
  rcases h with h | ⟨r, hr, hcase⟩
  · subst h; rfl
  · subst hr
    rcases hcase with h1 | h2
    · cases ht : r.tags <;> simp [analyzeWithAI, h1, ht, defaultAnalysis]
    · cases ht : r.title <;> simp [analyzeWithAI, h2, ht, defaultAnalysis]

/-- C6 witness: the amended theorem applied to a raising backend with a
concrete input text and no pre-existing tags. -/
theorem C6_amended_fallback_witness :
    analyzeWithAI "some note text".toList [] none =
      { title := "無題のメモ".toList, tags := ["未分類".toList],
        summary := some "some note text".toList, keywords := some [] } := by
  have h := C6_amended_fallback "some note text".toList [] none (Or.inl rfl)
  simpa using h

/-- C8: once the note's block sequence contains a heading whose text
contains the related-notes marker 「関連メモ」, the persister's backlink
append is the identity, so any number of further applications (with any
related-candidate list) leaves the block sequence — and in particular
the number of related-notes heading sections — unchanged. -/
theorem C8_append_once (blocks : List Block) (related : List Candidate) (n : Nat)
    (h : hasRelatedSection blocks = true) :
    (fun b => updateNotionBlocks b related)^[n] blocks = blocks ∧
    countRelatedHeadings ((fun b => updateNotionBlocks b related)^[n] blocks) =
      countRelatedHeadings blocks := by
  have hfix : updateNotionBlocks blocks related = blocks := by
    unfold updateNotionBlocks
    rw [h]
    split <;> rfl
  have hit : (fun b => updateNotionBlocks b related)^[n] blocks = blocks := by
    apply Function.iterate_fixed
    exact hfix
  exact ⟨hit, by rw [hit]⟩

/-- Witness blocks for claim C8: a note that already carries a
related-notes section heading (as appended by a previous run). -/
def c8Blocks : List Block :=
  [Block.paragraph ["body text".toList], Block.divider,
    Block.heading2 ["🔗 関連メモ".toList],
    Block.paragraph ["→ ".toList, "Rust memory model".toList]]

/-- Witness candidate list for claim C8. -/
def c8Related : List Candidate :=
  [{ id := "A", title := "Rust memory model".toList, score := 3 }]

/-- C8 witness: applying the backlink append twice to a note with a
pre-existing related-notes section changes nothing and leaves exactly
one such section. -/
theorem C8_append_once_witness :
    (fun b => updateNotionBlocks b c8Related)^[2] c8Blocks = c8Blocks ∧
    countRelatedHeadings ((fun b => updateNotionBlocks b c8Related)^[2] c8Blocks) =
      countRelatedHeadings c8Blocks :=
  C8_append_once c8Blocks c8Related 2 (by decide)

/-- C9: the archive path is the fixed directory `zettelkasten-vault/`,
the 10-character creation date, an underscore, the sanitized title and
the `.md` extension; the sanitized title is at most 50 characters,
consists only of alphanumeric, space, hyphen and underscore characters,
and in particular contains neither of the path-breaking characters `/`
and `\` (both are replaced by `-` before the filter). -/
theorem C9_archive_path (title createdTime : List Char)
    (h : 10 ≤ createdTime.length) :
    archivePath title createdTime =
      "zettelkasten-vault/".toList ++ createdTime.take 10 ++ "_".toList ++
        safeTitle title ++ ".md".toList ∧
    (createdTime.take 10).length = 10 ∧
    (safeTitle title).length ≤ 50 ∧
    (∀ c ∈ safeTitle title,
      (pyIsAlnum c || c == ' ' || c == '-' || c == '_') = true) ∧
    '/' ∉ safeTitle title ∧ '\\' ∉ safeTitle title := by
  refine ⟨rfl, ?_, ?_, ?_, ?_, ?_⟩
  · rw [List.length_take]; omega
  · calc (safeTitle title).length
        ≤ (((title.map (fun c => if c == '/' then '-' else c)).map
            (fun c => if c == '\\' then '-' else c)).take 50).length :=
          List.length_filter_le _ _
      _ ≤ 50 := by rw [List.length_take]; omega
  · intro c hc
    unfold safeTitle at hc
    exact (List.mem_filter.mp hc).2
  · intro hmem
    unfold safeTitle at hmem
    have := (List.mem_filter.mp hmem).2
    simp [pyIsAlnum] at this
  · intro hmem
    unfold safeTitle at hmem
    have := (List.mem_filter.mp hmem).2
    simp [pyIsAlnum] at this

/-- Witness title for claim C9: 60 characters, containing `/` and `\`
and punctuation stripped by the filter. -/
def c9Title : List Char :=
  "How to/structure\\a Zettelkasten archive: naming, slashes etc".toList

/-- Witness creation timestamp for claim C9. -/
def c9Created : List Char := "2024-01-02T03:04:05.000Z".toList

/-- C9 witness: the theorem applied to the concrete long title with
path-breaking characters, plus the concretely evaluated resulting
path. -/
theorem C9_archive_path_witness :
    10 ≤ c9Created.length ∧
    (safeTitle c9Title).length ≤ 50 ∧
    '/' ∉ safeTitle c9Title ∧ '\\' ∉ safeTitle c9Title ∧
    archivePath c9Title c9Created =
      "zettelkasten-vault/2024-01-02_How to-structure-a Zettelkasten archive naming s.md".toList := by
  have h := C9_archive_path c9Title c9Created (by decide)
  exact ⟨by decide, h.2.2.1, h.2.2.2.2.1, h.2.2.2.2.2, by decide⟩

/-- Does a `process_page` call return normally through the skip path? -/
def isSkip (r : ProcResult) : Bool :=
  match r with
  | .skipped => true
  | _ => false

/-- Does a `process_page` call return normally through the full
success path? -/
def isSuccess (r : ProcResult) : Bool :=
  match r with
  | .success _ => true
  | _ => false

/-- Helper for C10: the success counter of the processing loop, run
from an arbitrary accumulator, counts exactly the pages whose
processing ends in a skip or a full success. -/
theorem foldl_runStep_successCount (pages : List Page) (acc : RunResult) :
    (pages.foldl runStep acc).successCount =
      acc.successCount +
        ((pages.filter (fun p => isSkip (procOutcome p))).length +
          (pages.filter (fun p => isSuccess (procOutcome p))).length) := by
  induction pages generalizing acc with
  | nil => simp
  | cons p ps ih =>
    rw [List.foldl_cons, ih]
    rcases hp : procOutcome p with _ | t | e <;>
      simp [runStep, processPage, hp, List.filter_cons, isSkip, isSuccess] <;>
      omega

/-- C10: the success count reported by `run` equals the number of pages
processed to completion plus the number of pages skipped for too-short
content — skipped pages are counted as successes. -/
theorem C10_success_count (log : Ledger) (pages : List Page) :
    (runBatch log pages).successCount =
      (pages.filter (fun p => isSkip (procOutcome p))).length +
        (pages.filter (fun p => isSuccess (procOutcome p))).length := by
  unfold runBatch
  rw [foldl_runStep_successCount]
  simp

/-- Helper: with an empty keyword list every page scores zero, so the
per-page loop body keeps nothing. -/
theorem candOf_nil_keywords (currentPageId : String) (p : Page) :
    candOf [] currentPageId p = none := by
  simp [candOf, pageScore, titleMatches, tagMatches]

/-- C3: every candidate returned by `find_related_pages` corresponds to
a snapshot page that is neither the current page nor empty/placeholder
titled, its score is `2 * title keyword matches + tag keyword matches`
and it is strictly positive (zero-scoring notes are absent from the
result); an empty keyword list yields the empty result. -/
theorem C3_scoring (keywords : List (List Char)) (currentPageId : String)
    (cache : List Page) (topK : Nat) :
    (keywords = [] → findRelatedPages keywords currentPageId cache topK = []) ∧
    (∀ p ∈ cache, p.id ≠ currentPageId → p.title ≠ [] → p.title ≠ "無題".toList →
      0 < pageScore keywords p →
      ({ id := p.id, title := p.title, score := pageScore keywords p } : Candidate) ∈
        relatedOf keywords currentPageId cache) ∧
    ∀ c ∈ findRelatedPages keywords currentPageId cache topK,
      0 < c.score ∧
      ∃ p, p ∈ cache ∧ p.id = c.id ∧ p.title = c.title ∧
        p.id ≠ currentPageId ∧ p.title ≠ [] ∧ p.title ≠ "無題".toList ∧
        c.score = pageScore keywords p := by
  refine ⟨?_, ?_, ?_⟩
  · intro h
    subst h
    simp [findRelatedPages]
  · intro p hp h1 h2 h3 h4
    rw [relatedOf, List.mem_filterMap]
    refine ⟨p, hp, ?_⟩
    simp [candOf, h1, h2, h4, List.isEmpty_iff]
    exact h3
  · intro c hc
    unfold findRelatedPages at hc
    split at hc
    · simp at hc
    · have hmem : c ∈ sortDesc (relatedOf keywords currentPageId cache) :=
        List.take_subset _ _ hc
      rw [sortDesc, List.mem_insertionSort] at hmem
      rw [relatedOf, List.mem_filterMap] at hmem
      obtain ⟨p, hp, hcand⟩ := hmem
      simp only [candOf] at hcand
      split_ifs at hcand with h1 h2 h3
      simp only [Bool.not_eq_true, Bool.or_eq_false_iff, beq_eq_false_iff_ne] at h2
      simp only [beq_iff_eq] at h1
      have h2a : p.title ≠ [] := by
        intro he
        rw [he] at h2
        simp at h2
      have h2b : p.title ≠ "無題".toList := h2.2
      have hc2 := Option.some.inj hcand
      subst hc2
      exact ⟨h3, p, hp, rfl, rfl, h1, h2a, h2b, rfl⟩

/-- Witness snapshot page for claim C3, taken from the spec's worked
example: title "Rust memory model" (one title match for the keywords
["rust", "cache"]) and tags ["cache", "gc"] (one tag match), so the
score is 2 * 1 + 1 = 3. -/
def c3Page : Page :=
  { id := "A", title := "Rust memory model".toList,
    tags := ["cache".toList, "gc".toList], status := "未処理",
    aiProcessed := false, lastEditedTime := "2024-01-02T00:00:00.000Z",
    createdTime := "2024-01-02".toList, blocks := [], aiResp := none,
    persistErr := none }

/-- The candidate `find_related_pages` produces for `c3Page`. -/
def c3Cand : Candidate :=
  { id := "A", title := "Rust memory model".toList, score := 3 }

/-- C3 witness: the theorem applied to the empty keyword list (empty
result) and to the spec's worked scoring example, whose candidate
scores 2 * 1 + 1 = 3. -/
theorem C3_scoring_witness :
    findRelatedPages ([] : List (List Char)) "x" [c3Page] 5 = [] ∧
    ({ id := "A", title := "Rust memory model".toList,
        score := pageScore ["rust".toList, "cache".toList] c3Page } : Candidate) ∈
      relatedOf ["rust".toList, "cache".toList] "x" [c3Page] ∧
    0 < c3Cand.score ∧
    c3Cand.score = pageScore ["rust".toList, "cache".toList] c3Page ∧
    pageScore ["rust".toList, "cache".toList] c3Page = 3 ∧
    findRelatedPages ["rust".toList, "cache".toList] "x" [c3Page] 5 = [c3Cand] := by
  have h1 := (C3_scoring [] "x" [c3Page] 5).1 rfl
  have h2 := (C3_scoring ["rust".toList, "cache".toList] "x" [c3Page] 5).2.1
    c3Page (by decide) (by decide) (by decide) (by decide) (by decide)
  have h3 := (C3_scoring ["rust".toList, "cache".toList] "x" [c3Page] 5).2.2
    c3Cand (by decide)
  exact ⟨h1, h2, h3.1, by decide, by decide, by decide⟩

/-- Helper for the stability of the descending sort: inserting `a`
passes only over elements of strictly greater score, so filtering on
`a`'s own score value commutes with the insertion, and filtering on any
other value ignores the insertion. -/
theorem filter_orderedInsert_score (a : Candidate) (l : List Candidate) (s : Nat) :
    (List.orderedInsert scoreGE a l).filter (fun c => c.score == s) =
      if a.score == s then a :: l.filter (fun c => c.score == s)
      else l.filter (fun c => c.score == s) := by
  induction l with
  | nil =>
    rw [List.orderedInsert_nil, List.filter_cons]
  | cons b t ih =>
    rw [List.orderedInsert]
    by_cases hab : scoreGE a b
    · rw [if_pos hab, List.filter_cons, List.filter_cons]
    · rw [if_neg hab, List.filter_cons, ih]
      have hlt : a.score < b.score := by
        simpa [scoreGE, Nat.not_le] using hab
      by_cases ha : (a.score == s) = true
      · have hb : (b.score == s) = false := by
          rw [beq_eq_false_iff_ne]
          have has : a.score = s := by simpa using ha
          omega
        simp [List.filter_cons, ha, hb]
      · simp [List.filter_cons, ha]

/-- Stability of the descending sort: for each score value, the sorted
list presents the candidates with that score in exactly the order of
the unsorted input list. -/
theorem filter_sortDesc (l : List Candidate) (s : Nat) :
    (sortDesc l).filter (fun c => c.score == s) =
      l.filter (fun c => c.score == s) := by
  induction l with
  | nil => rfl
  | cons a t ih =>
    rw [sortDesc, List.insertionSort, filter_orderedInsert_score]
    rw [show List.insertionSort scoreGE t = sortDesc t from rfl, ih,
      List.filter_cons]

/-- Helper: filtering a prefix of a list yields a prefix of the
filtered list. -/
theorem filter_take_append {α : Type} (l : List α) (n : Nat) (p : α → Bool) :
    l.filter p = (l.take n).filter p ++ (l.drop n).filter p := by
  rw [← List.filter_append, List.take_append_drop]

/-- C4: the result of `find_related_pages` has at most `topK` elements,
is sorted by weakly descending score, and is stable: for every score
value `s`, the result's candidates of score `s` are, in order, an
initial segment of the score-`s` candidates of the unsorted `related`
list — which itself lists the snapshot pages in snapshot order
(`relatedOf` is an order-preserving `filterMap` of the snapshot), so
equal-score candidates appear in snapshot order. -/
theorem C4_ranking (keywords : List (List Char)) (currentPageId : String)
    (cache : List Page) (topK : Nat) :
    (findRelatedPages keywords currentPageId cache topK).length ≤ topK ∧
    List.Sorted scoreGE (findRelatedPages keywords currentPageId cache topK) ∧
    ∀ s : Nat, ∃ rest,
      (relatedOf keywords currentPageId cache).filter (fun c => c.score == s) =
        (findRelatedPages keywords currentPageId cache topK).filter
            (fun c => c.score == s) ++ rest := by
  unfold findRelatedPages
  split
  · next hk =>
    have hkw : keywords = [] := by
      cases keywords with
      | nil => rfl
      | cons k ks => simp at hk
    subst hkw
    have hrel : relatedOf [] currentPageId cache = [] := by
      rw [relatedOf, List.filterMap_eq_nil_iff]
      intro p hp
      exact candOf_nil_keywords currentPageId p
    refine ⟨by simp, by simp, ?_⟩
    intro s
    exact ⟨[], by rw [hrel]; rfl⟩
  · refine ⟨?_, ?_, ?_⟩
    · rw [List.length_take]
      exact Nat.min_le_left _ _
    · have hs : List.Sorted scoreGE (sortDesc (relatedOf keywords currentPageId cache)) :=
        List.sorted_insertionSort scoreGE _
      exact List.Pairwise.sublist (List.take_sublist _ _) hs
    · intro s
      refine ⟨(List.drop topK (sortDesc (relatedOf keywords currentPageId cache))).filter
        (fun c => c.score == s), ?_⟩
      rw [← filter_sortDesc (relatedOf keywords currentPageId cache) s]
      exact filter_take_append _ topK _
